import Mathlib

/-!
Shallow embedding of the EINT (external interrupt) core of
`drivers/pinctrl/samsung/pinctrl-exynos.c` and of the SMP stack-dump
serialisation in `lib/dump_stack.c`, together with theorems settling the
frozen claims about the natural-language specification of this code.

Machine integers are modelled as `Nat`; a C bitwise complement `~m` on a
w-bit unsigned value is modelled as XOR with the all-ones word `2 ^ w - 1`.
Register files are modelled as explicit record fields; a register write is
an explicit state update, and where the order of writes matters the write
sequence is reified as a list of write events.
-/

/-- Bitwise complement of a value held in a 32-bit unsigned register:
`~m` is XOR with the all-ones 32-bit word. -/
def compl32 (m : Nat) : Nat := (2 ^ 32 - 1) ^^^ m

/-- Bitwise complement of a value held in a 64-bit `unsigned long`:
`~m` is XOR with the all-ones 64-bit word. -/
def compl64 (m : Nat) : Nat := (2 ^ 64 - 1) ^^^ m

/-- Extract the `w`-bit field of `x` that starts at bit `s`:
`(x >> s) & ((1 << w) - 1)`. -/
def getField (x s w : Nat) : Nat := (x >>> s) &&& (2 ^ w - 1)

/-! ### Constants

The constants below come from headers of this repository that are not part
of the provided source tree (`pinctrl-exynos.h`, `pinctrl-samsung.h`,
`include/linux/irq.h`).  They are modelled from the spec: the trigger-code
field is a 3-bit code inside a 4-bit-per-line control field, the glitch
filter control word packs enable/select bits above a 6-bit width at 8 bits
per pin pair, and the service register packs a group index above a pin
index. -/

/-- Modelled from the spec: mask of the 3-bit trigger code (`EXYNOS_EINT_CON_MASK`). -/
def EXYNOS_EINT_CON_MASK : Nat := 0x7

/-- Modelled from the spec: control-register field width per line (`EXYNOS_EINT_CON_LEN`). -/
def EXYNOS_EINT_CON_LEN : Nat := 4

/-- Modelled from the spec: hardware trigger code for level-low. -/
def EXYNOS_EINT_LEVEL_LOW : Nat := 0

/-- Modelled from the spec: hardware trigger code for level-high. -/
def EXYNOS_EINT_LEVEL_HIGH : Nat := 1

/-- Modelled from the spec: hardware trigger code for falling edge. -/
def EXYNOS_EINT_EDGE_FALLING : Nat := 2

/-- Modelled from the spec: hardware trigger code for rising edge. -/
def EXYNOS_EINT_EDGE_RISING : Nat := 3

/-- Modelled from the spec: hardware trigger code for both edges. -/
def EXYNOS_EINT_EDGE_BOTH : Nat := 4

/-- Modelled from the spec: glitch-filter enable bit (`EXYNOS_EINT_FLTCON_EN`). -/
def EXYNOS_EINT_FLTCON_EN : Nat := 0x80

/-- Modelled from the spec: glitch-filter digital/majority select bit (`EXYNOS_EINT_FLTCON_SEL`). -/
def EXYNOS_EINT_FLTCON_SEL : Nat := 0x40

/-- Modelled from the spec: mask of one per-pair filter field (`EXYNOS_EINT_FLTCON_MASK`). -/
def EXYNOS_EINT_FLTCON_MASK : Nat := 0xff

/-- Modelled from the spec: per-pair filter field width (`EXYNOS_EINT_FLTCON_LEN`). -/
def EXYNOS_EINT_FLTCON_LEN : Nat := 8

/-- Modelled from the spec: filter width is the low 6 bits of the control word
(`EXYNOS_EINT_FLTCON_WIDTH(x) = (x) & 0x3f`). -/
def EXYNOS_EINT_FLTCON_WIDTH (x : Nat) : Nat := x &&& 0x3f

/-- Modelled from the spec: shift of the bank-group field of the service register. -/
def EXYNOS_SVC_GROUP_SHIFT : Nat := 3

/-- Modelled from the spec: mask of the bank-group field of the service register. -/
def EXYNOS_SVC_GROUP_MASK : Nat := 0x1f

/-- Modelled from the spec: mask of the pin-index field of the service register. -/
def EXYNOS_SVC_NUM_MASK : Nat := 7

/-- Modelled from the spec: service-register group decode
(`EXYNOS_SVC_GROUP(x) = (x >> 3) & 0x1f`). -/
def EXYNOS_SVC_GROUP (x : Nat) : Nat := (x >>> EXYNOS_SVC_GROUP_SHIFT) &&& EXYNOS_SVC_GROUP_MASK

/-- Modelled from the spec: generic-framework trigger kind, rising edge (`IRQ_TYPE_EDGE_RISING`). -/
def IRQ_TYPE_EDGE_RISING : Nat := 1

/-- Modelled from the spec: generic-framework trigger kind, falling edge (`IRQ_TYPE_EDGE_FALLING`). -/
def IRQ_TYPE_EDGE_FALLING : Nat := 2

/-- Modelled from the spec: generic-framework trigger kind, both edges
(`IRQ_TYPE_EDGE_BOTH = IRQ_TYPE_EDGE_RISING | IRQ_TYPE_EDGE_FALLING`). -/
def IRQ_TYPE_EDGE_BOTH : Nat := 3

/-- Modelled from the spec: generic-framework trigger kind, level high (`IRQ_TYPE_LEVEL_HIGH`). -/
def IRQ_TYPE_LEVEL_HIGH : Nat := 4

/-- Modelled from the spec: generic-framework trigger kind, level low (`IRQ_TYPE_LEVEL_LOW`). -/
def IRQ_TYPE_LEVEL_LOW : Nat := 8

/-- Modelled from the spec: mask selecting the level-type bits
(`IRQ_TYPE_LEVEL_MASK = IRQ_TYPE_LEVEL_LOW | IRQ_TYPE_LEVEL_HIGH`). -/
def IRQ_TYPE_LEVEL_MASK : Nat := IRQ_TYPE_LEVEL_LOW ||| IRQ_TYPE_LEVEL_HIGH

/-! ### Mask / ack / unmask (`exynos_irq_mask`, `exynos_irq_ack`, `exynos_irq_unmask`) -/

/-- One bank's EINT pending and mask registers. -/
structure EintRegs where
  pend : Nat
  mask : Nat
deriving DecidableEq

/-- A single register write issued by the chip operations: either a write of
value `v` to the pending register or to the mask register. -/
inductive EintWrite where
  | pendWrite (v : Nat)
  | maskWrite (v : Nat)
deriving DecidableEq

/-- Effect of one write on the register pair.  The pending register is
write-one-to-clear (modelled from the spec: "write-one-to-clear bit `line`
in the pending register"); the mask register is plain read/write. -/
def applyWrite (s : EintRegs) : EintWrite → EintRegs
  | EintWrite.pendWrite v => { s with pend := s.pend &&& compl32 v }
  | EintWrite.maskWrite v => { s with mask := v }

/-- Effect of a write sequence, first write applied first. -/
def applyWrites (s : EintRegs) (l : List EintWrite) : EintRegs :=
  l.foldl applyWrite s

/-- `exynos_irq_ack`: `writel(1 << irqd->hwirq, d->virt_base + reg_pend)`. -/
def exynos_irq_ack (hwirq : Nat) : List EintWrite :=
  [EintWrite.pendWrite (1 <<< hwirq)]

/-- `exynos_irq_mask`: read the mask register, set bit `hwirq`, write it back. -/
def exynos_irq_mask (hwirq : Nat) (s : EintRegs) : List EintWrite :=
  [EintWrite.maskWrite (s.mask ||| (1 <<< hwirq))]

/-- `exynos_irq_unmask`: if the line's configured trigger type has a bit in
`IRQ_TYPE_LEVEL_MASK`, first ack (`exynos_irq_ack`), then read the mask
register, clear bit `hwirq` (`mask &= ~(1 << irqd->hwirq)` on an
`unsigned long`), and write it back.  The mask register is read after the
ack, as in the source. -/
def exynos_irq_unmask (trigger_type hwirq : Nat) (s : EintRegs) : List EintWrite :=
  let ackPart := if trigger_type &&& IRQ_TYPE_LEVEL_MASK ≠ 0 then exynos_irq_ack hwirq else []
  let s1 := applyWrites s ackPart
  ackPart ++ [EintWrite.maskWrite (s1.mask &&& compl64 (1 <<< hwirq))]

/-! ### Trigger type (`exynos_irq_set_type`) -/

/-- The handling primitive registered with the generic framework
(`handle_edge_irq` / `handle_level_irq`), or whatever was installed before. -/
inductive IrqHandler where
  | edge
  | level
  | other
deriving DecidableEq

/-- State touched by `exynos_irq_set_type`: the bank's EINT control register
and the generic-framework handling primitive installed for the line. -/
structure EintLine where
  con : Nat
  handler : IrqHandler
deriving DecidableEq

/-- The `switch (type)` of `exynos_irq_set_type`: map a requested trigger
kind to its hardware code, or `none` for the unsupported default branch. -/
def exynos_trig_type (type : Nat) : Option Nat :=
  if type = IRQ_TYPE_EDGE_RISING then some EXYNOS_EINT_EDGE_RISING
  else if type = IRQ_TYPE_EDGE_FALLING then some EXYNOS_EINT_EDGE_FALLING
  else if type = IRQ_TYPE_EDGE_BOTH then some EXYNOS_EINT_EDGE_BOTH
  else if type = IRQ_TYPE_LEVEL_HIGH then some EXYNOS_EINT_LEVEL_HIGH
  else if type = IRQ_TYPE_LEVEL_LOW then some EXYNOS_EINT_LEVEL_LOW
  else none

/-- `exynos_irq_set_type`: on an unsupported kind return `-EINVAL` having
touched nothing; otherwise install `handle_edge_irq` when
`type & IRQ_TYPE_EDGE_BOTH` is non-zero and `handle_level_irq` otherwise,
and rewrite the 3-bit trigger-code field at `EXYNOS_EINT_CON_LEN * hwirq`
in the control register (`con &= ~(MASK << shift); con |= trig << shift`). -/
def exynos_irq_set_type (hwirq type : Nat) (s : EintLine) : Int × EintLine :=
  let shift := EXYNOS_EINT_CON_LEN * hwirq
  match exynos_trig_type type with
  | none => (-22, s)
  | some trig_type =>
    let handler := if type &&& IRQ_TYPE_EDGE_BOTH ≠ 0 then IrqHandler.edge else IrqHandler.level
    let con := s.con &&& compl32 (EXYNOS_EINT_CON_MASK <<< shift) ||| (trig_type <<< shift)
    (0, { con := con, handler := handler })

/-! ### Muxed-wakeup demultiplexer
(`exynos_irq_demux_eint`, `exynos_irq_demux_eint16_31`) -/

/-- `exynos_irq_demux_eint`: while the working value is non-zero, take
`irq = fls(pend) - 1` (the highest set bit, `Nat.log2`), dispatch it, and
clear that bit locally (`pend &= ~(1 << irq)`, which subtracts `2 ^ irq`
since bit `irq` is the highest set bit).  The returned list is the sequence
of dispatched hardware bit indices, in dispatch order. -/
def exynos_irq_demux_eint (pend : Nat) : List Nat :=
  if h : pend = 0 then []
  else
    have : pend - 2 ^ Nat.log2 pend < pend :=
      Nat.sub_lt (Nat.pos_of_ne_zero h) (Nat.two_pow_pos _)
    Nat.log2 pend :: exynos_irq_demux_eint (pend - 2 ^ Nat.log2 pend)
termination_by pend

/-- The bank loop of `exynos_irq_demux_eint16_31`, starting at bank index
`i`: each bank contributes the dispatches of `exynos_irq_demux_eint` on
`pend & ~mask` (complement on an `unsigned long`), tagged with the bank
index.  Each list element of `banks` is that bank's
`(pending register, mask register)` read. -/
def exynos_demux_banks : Nat → List (Nat × Nat) → List (Nat × Nat)
  | _, [] => []
  | i, b :: rest =>
    (exynos_irq_demux_eint (b.1 &&& compl64 b.2)).map (fun irq => (i, irq))
      ++ exynos_demux_banks (i + 1) rest

/-- `exynos_irq_demux_eint16_31`: iterate over every bank of the muxed
wakeup group in order, reading its pending and mask registers and
demultiplexing `pend & ~mask`.  Returns all dispatches
`(bank index, bit index)` in dispatch order. -/
def exynos_irq_demux_eint16_31 (banks : List (Nat × Nat)) : List (Nat × Nat) :=
  exynos_demux_banks 0 banks

/-! ### Primary GPIO dispatch (`exynos_eint_gpio_irq`) -/

/-- Return value of a top-level interrupt handler (`IRQ_HANDLED` / `IRQ_NONE`). -/
inductive IrqReturn where
  | handled
  | notMine
deriving DecidableEq

/-- `exynos_eint_gpio_irq`: decode the service register into a bank group
and a pin index; group `0` returns `IRQ_HANDLED` with no dispatch;
otherwise look up the virtual line of pin `pin` in bank `group - 1`
(`irq_linear_revmap`, where `0` means no mapping); an unmapped pin returns
`IRQ_NONE` with no dispatch; otherwise exactly one `generic_handle_irq`
call is made for that virtual line.  `revmap b p` is bank `b`'s
linear reverse map. -/
def exynos_eint_gpio_irq (revmap : Nat → Nat → Nat) (svc : Nat) : IrqReturn × List Nat :=
  let group := EXYNOS_SVC_GROUP svc
  let pin := svc &&& EXYNOS_SVC_NUM_MASK
  if group = 0 then (IrqReturn.handled, [])
  else
    let virq := revmap (group - 1) pin
    if virq = 0 then (IrqReturn.notMine, [])
    else (IrqReturn.handled, [virq])

/-! ### Glitch-filter configuration (`exynos_eint_flt_config`) -/

/-- The filter control word built at the top of `exynos_eint_flt_config`:
`flt_con = 0; if (en) flt_con |= EN; if (sel) flt_con |= SEL;
flt_con |= WIDTH(width)`. -/
def fltControlWord (en sel width : Nat) : Nat :=
  ((if en ≠ 0 then EXYNOS_EINT_FLTCON_EN else 0)
    ||| (if sel ≠ 0 then EXYNOS_EINT_FLTCON_SEL else 0))
    ||| EXYNOS_EINT_FLTCON_WIDTH width

/-- One iteration of the pin-pair loop of `exynos_eint_flt_config`: read the
primary filter register, clear the 8-bit field of pair `i`, install
`flt_con` there, and write the value to both the primary and the paired
sub-register (`writel(val, flt_reg); writel(val, flt_reg + 0x4)`). -/
def fltStep (flt_con : Nat) (r : Nat × Nat) (i : Nat) : Nat × Nat :=
  let shift := i * EXYNOS_EINT_FLTCON_LEN
  let val := r.1 &&& compl32 (EXYNOS_EINT_FLTCON_MASK <<< shift) ||| (flt_con <<< shift)
  (val, val)

/-- `exynos_eint_flt_config`: build the control word, then run the pin-pair
loop `for (i = 0; i < bank->nr_pins >> 1; i++)` over the two filter
sub-registers `(fltcon0, fltcon1)` of the bank. -/
def exynos_eint_flt_config (en sel width npins f0 f1 : Nat) : Nat × Nat :=
  (List.range (npins >>> 1)).foldl (fltStep (fltControlWord en sel width)) (f0, f1)

/-! ### Wake mask (`exynos_wkup_irq_set_wake`, `exynos_get_eint_wake_mask`) -/

/-- Initial value of `exynos_eint_wake_mask`: `0xffffffff`, all bits set. -/
def exynos_eint_wake_mask_init : Nat := 0xffffffff

/-- `exynos_wkup_irq_set_wake`: `bit = 1UL << (2 * bank->eint_offset +
irqd->hwirq)`; disabling wake (`on = 0`) sets the bit in the global wake
mask, enabling wake clears it (`&= ~bit` on an `unsigned long`); the result
is stored back into the 32-bit `exynos_eint_wake_mask`. -/
def exynos_wkup_irq_set_wake (wake_mask eint_offset hwirq on_ : Nat) : Nat :=
  let bit := 1 <<< (2 * eint_offset + hwirq)
  if on_ = 0 then (wake_mask ||| bit) % 2 ^ 32
  else (wake_mask &&& compl64 bit) % 2 ^ 32

/-! ### Suspend / resume
(`exynos_pinctrl_suspend`, `exynos_pinctrl_resume`,
`exynos_pinctrl_suspend_bank`, `exynos_pinctrl_resume_bank`,
`exynos_eint_flt_config` calls with analog/digital settings) -/

/-- EINT category of a bank (`bank->eint_type`). -/
inductive EintType where
  | noneType
  | gpio
  | wkup
  | wkupMux
deriving DecidableEq

/-- The three per-bank registers that suspend/resume touches, and the saved
snapshot (`struct exynos_eint_gpio_save`) holding the same three words. -/
structure BankRegs where
  eint_con : Nat
  fltcon0 : Nat
  fltcon1 : Nat
deriving DecidableEq

/-- Static description of a bank as far as suspend/resume needs it. -/
structure BankDesc where
  eint_type : EintType
  nr_pins : Nat
deriving DecidableEq

/-- Register and save-slot state of the whole controller, indexed by bank
position in the controller's bank list.  Distinct banks' registers are at
distinct offsets, so the per-bank loop bodies act on disjoint state and are
modelled as independent per-index updates. -/
structure PinctrlState where
  regs : Nat → BankRegs
  save : Nat → BankRegs

/-- `exynos_pinctrl_suspend_bank`: snapshot the control register and both
filter registers into the bank's save slot. -/
def exynos_pinctrl_suspend_bank (r : BankRegs) : BankRegs := r

/-- `exynos_pinctrl_resume_bank`: write the three saved words back verbatim. -/
def exynos_pinctrl_resume_bank (save : BankRegs) : BankRegs := save

/-- Apply `exynos_eint_flt_config en sel 0` to the two filter registers of
one bank, leaving its control register alone. -/
def fltConfigBank (en sel : Nat) (b : BankDesc) (r : BankRegs) : BankRegs :=
  let p := exynos_eint_flt_config en sel 0 b.nr_pins r.fltcon0 r.fltcon1
  { r with fltcon0 := p.1, fltcon1 := p.2 }

/-- `exynos_pinctrl_suspend`: GPIO-demuxed banks get their registers
snapshotted (registers untouched); wakeup banks (direct or muxed) get their
glitch filter switched to analog mode
(`exynos_eint_flt_config(EXYNOS_EINT_FLTCON_EN, 0, 0, d, bank)`). -/
def exynos_pinctrl_suspend (banks : List BankDesc) (s : PinctrlState) : PinctrlState where
  regs := fun i =>
    match banks[i]? with
    | some b =>
      match b.eint_type with
      | EintType.wkup => fltConfigBank EXYNOS_EINT_FLTCON_EN 0 b (s.regs i)
      | EintType.wkupMux => fltConfigBank EXYNOS_EINT_FLTCON_EN 0 b (s.regs i)
      | _ => s.regs i
    | none => s.regs i
  save := fun i =>
    match banks[i]? with
    | some b =>
      if b.eint_type = EintType.gpio then exynos_pinctrl_suspend_bank (s.regs i) else s.save i
    | none => s.save i

/-- `exynos_pinctrl_resume`: GPIO-demuxed banks get the three saved words
written back verbatim; wakeup banks get their glitch filter reprogrammed to
digital/majority-select mode (`exynos_eint_flt_config(EXYNOS_EINT_FLTCON_EN,
EXYNOS_EINT_FLTCON_SEL, 0, d, bank)`, the initialization-time setting). -/
def exynos_pinctrl_resume (banks : List BankDesc) (s : PinctrlState) : PinctrlState where
  regs := fun i =>
    match banks[i]? with
    | some b =>
      match b.eint_type with
      | EintType.gpio => exynos_pinctrl_resume_bank (s.save i)
      | EintType.wkup => fltConfigBank EXYNOS_EINT_FLTCON_EN EXYNOS_EINT_FLTCON_SEL b (s.regs i)
      | EintType.wkupMux =>
        fltConfigBank EXYNOS_EINT_FLTCON_EN EXYNOS_EINT_FLTCON_SEL b (s.regs i)
      | EintType.noneType => s.regs i
    | none => s.regs i
  save := s.save

/-! ### EINT initialization
(`exynos_eint_gpio_init`, `exynos_eint_wkup_init`)

The models below record the per-bank virtual-line domain operations
(`irq_domain_add_linear` / `irq_domain_remove`) as an event trace, in
program order, together with the returned error code.  The per-bank inputs
are the bank's EINT category, whether its domain allocation succeeds
(`domOk`), whether its `soc_priv` / `weint_data` allocation succeeds
(`allocOk` / `wAllocOk`), and whether its topology node has an
`"interrupts"` property (`hasIrqProp`).  The loop over `nr_banks` banks is
modelled with the remaining bank count as the structural recursion
argument. -/

/-- A virtual-line domain operation on the bank at index `i`. -/
inductive DomEv where
  | create (i : Nat)
  | remove (i : Nat)
deriving DecidableEq

/-- The `err_domains` unwind loop of `exynos_eint_gpio_init`:
`for (--i, --bank; i >= 0; --i, --bank)` remove the domain of every
GPIO-demuxed bank below index `i`, highest index first. -/
def exynos_gpio_unwind (ty : Nat → EintType) : Nat → List DomEv
  | 0 => []
  | i + 1 =>
    (if ty i = EintType.gpio then [DomEv.remove i] else []) ++ exynos_gpio_unwind ty i

/-- The bank loop of `exynos_eint_gpio_init`, at bank index `i` with
`fuel` banks left: skip non-GPIO banks; add a linear domain (on failure
return `-ENXIO` after unwinding); allocate the save slot (on failure remove
this bank's domain, unwind, and return `-ENOMEM`); configure the digital
filter and continue. -/
def exynos_eint_gpio_init_loop (ty : Nat → EintType) (domOk allocOk : Nat → Bool) :
    Nat → Nat → Int × List DomEv
  | _, 0 => (0, [])
  | i, fuel + 1 =>
    if ty i ≠ EintType.gpio then exynos_eint_gpio_init_loop ty domOk allocOk (i + 1) fuel
    else if domOk i = false then (-6, exynos_gpio_unwind ty i)
    else if allocOk i = false then
      (-12, DomEv.create i :: DomEv.remove i :: exynos_gpio_unwind ty i)
    else
      let r := exynos_eint_gpio_init_loop ty domOk allocOk (i + 1) fuel
      (r.1, DomEv.create i :: r.2)

/-- `exynos_eint_gpio_init`: fail with `-EINVAL` when no parent interrupt
number is available, `-ENXIO` when requesting it fails, otherwise run the
bank loop over all `n` banks. -/
def exynos_eint_gpio_init (has_irq req_ok : Bool) (ty : Nat → EintType)
    (domOk allocOk : Nat → Bool) (n : Nat) : Int × List DomEv :=
  if has_irq = false then (-22, [])
  else if req_ok = false then (-6, [])
  else exynos_eint_gpio_init_loop ty domOk allocOk 0 n

/-- The bank loop of `exynos_eint_wkup_init`, at bank index `i` with `fuel`
banks left: skip non-wakeup banks; configure the digital filter; add a
linear domain (on failure return `-ENXIO` immediately, with no unwinding);
a bank without an `"interrupts"` property is reclassified muxed and the
loop continues; otherwise allocate the per-pin binding array (on failure
return `-ENOMEM` immediately) and bind the per-pin handlers. -/
def exynos_eint_wkup_init_loop (ty : Nat → EintType)
    (domOk hasIrqProp wAllocOk : Nat → Bool) : Nat → Nat → Int × List DomEv
  | _, 0 => (0, [])
  | i, fuel + 1 =>
    if ty i ≠ EintType.wkup then exynos_eint_wkup_init_loop ty domOk hasIrqProp wAllocOk (i + 1) fuel
    else if domOk i = false then (-6, [])
    else if hasIrqProp i = false then
      let r := exynos_eint_wkup_init_loop ty domOk hasIrqProp wAllocOk (i + 1) fuel
      (r.1, DomEv.create i :: r.2)
    else if wAllocOk i = false then (-12, [DomEv.create i])
    else
      let r := exynos_eint_wkup_init_loop ty domOk hasIrqProp wAllocOk (i + 1) fuel
      (r.1, DomEv.create i :: r.2)

/-- `exynos_eint_wkup_init`: fail with `-ENODEV` when no wakeup topology
node is found, otherwise run the bank loop over all `n` banks.  The
post-loop binding of the shared muxed line performs no domain operation
and is elided. -/
def exynos_eint_wkup_init (has_wkup_node : Bool) (ty : Nat → EintType)
    (domOk hasIrqProp wAllocOk : Nat → Bool) (n : Nat) : Int × List DomEv :=
  if has_wkup_node = false then (-19, [])
  else exynos_eint_wkup_init_loop ty domOk hasIrqProp wAllocOk 0 n

/-- The domain-create events emitted while the gpio init loop walks banks
`i, i + 1, ..., i + d - 1` with every allocation succeeding: one create per
GPIO-demuxed bank, in increasing bank order. -/
def exynos_gpio_creates (ty : Nat → EintType) : Nat → Nat → List DomEv
  | _, 0 => []
  | i, d + 1 =>
    (if ty i = EintType.gpio then [DomEv.create i] else [])
      ++ exynos_gpio_creates ty (i + 1) d

/-- The domain-create events emitted while the wakeup init loop walks banks
`i, i + 1, ..., i + d - 1` with every allocation succeeding: one create per
wakeup bank, in increasing bank order. -/
def exynos_wkup_creates (ty : Nat → EintType) : Nat → Nat → List DomEv
  | _, 0 => []
  | i, d + 1 =>
    (if ty i = EintType.wkup then [DomEv.create i] else [])
      ++ exynos_wkup_creates ty (i + 1) d

/-- The remove event matching a create event. -/
def DomEv.toRemove : DomEv → DomEv
  | DomEv.create i => DomEv.remove i
  | e => e

/-! ### SMP stack-dump serialisation (`lib/dump_stack.c`) -/

/-- The lock-acquisition step of `_dump_stack`:
`old = atomic_cmpxchg(&dump_lock, -1, cpu)`.  Returns the value of
`was_locked` and the lock value after the cmpxchg; an `old` belonging to a
different CPU sends the caller into the `cpu_relax` retry loop, which for a
single completed call is the `none` case. -/
def dump_stack_acquire (lock cpu : Int) : Option (Bool × Int) :=
  let old := lock
  let lock1 := if lock = -1 then cpu else lock
  if old = -1 then some (false, lock1)
  else if old = cpu then some (true, lock1)
  else none

/-- `_dump_stack` on SMP, projected onto the serialisation lock: acquire
(possibly nested on the same CPU), dump, and release with
`atomic_set(&dump_lock, -1)` only when `was_locked` is zero.  Returns the
lock value at exit of a completed call, or `none` when the call would spin
waiting for another CPU. -/
def _dump_stack (lock cpu : Int) : Option Int :=
  match dump_stack_acquire lock cpu with
  | some (was_locked, lock1) => some (if was_locked = false then -1 else lock1)
  | none => none

/-! ## Generic lemmas about W-bit register operations -/

theorem testBit_compl (W m k : Nat) (hm : m < 2 ^ W) :
    ((2 ^ W - 1) ^^^ m).testBit k = (decide (k < W) && !(m.testBit k)) := by
  by_cases h : k < W
  · simp [Nat.testBit_xor, Nat.testBit_two_pow_sub_one, h]
  · have hk : m.testBit k = false :=
      Nat.testBit_lt_two_pow
        (lt_of_lt_of_le hm (Nat.pow_le_pow_right (by decide) (Nat.not_lt.mp h)))
    simp [Nat.testBit_xor, Nat.testBit_two_pow_sub_one, h, hk]

theorem testBit_field_write (W x c s w k : Nat) (hx : x < 2 ^ W) (hc : c < 2 ^ w)
    (hsw : s + w ≤ W) :
    ((x &&& ((2 ^ W - 1) ^^^ ((2 ^ w - 1) <<< s))) ||| (c <<< s)).testBit k
      = if s ≤ k ∧ k < s + w then c.testBit (k - s) else x.testBit k := by
  have hm : (2 ^ w - 1) <<< s < 2 ^ W := by
    have h1 : (2 ^ w - 1) <<< s < 2 ^ (w + s) :=
      Nat.shiftLeft_lt (by have := Nat.two_pow_pos w; omega)
    exact lt_of_lt_of_le h1 (Nat.pow_le_pow_right (by decide) (by omega))
  rw [Nat.testBit_lor, Nat.testBit_land, testBit_compl W _ k hm, Nat.testBit_shiftLeft,
    Nat.testBit_shiftLeft, Nat.testBit_two_pow_sub_one]
  by_cases h1 : s ≤ k
  · by_cases h2 : k < s + w
    · simp [h1, h2, (by omega : k - s < w), (by omega : k < W)]
    · have hcb : c.testBit (k - s) = false :=
        Nat.testBit_lt_two_pow
          (lt_of_lt_of_le hc (Nat.pow_le_pow_right (by decide) (by omega)))
      by_cases h3 : k < W
      · simp [h1, h2, hcb, h3]
        intro _
        omega
      · have hxb : x.testBit k = false :=
          Nat.testBit_lt_two_pow
            (lt_of_lt_of_le hx (Nat.pow_le_pow_right (by decide) (Nat.not_lt.mp h3)))
        simp [h1, h2, hcb, h3, hxb]
  · simp [h1, (by omega : ¬ (s ≤ k ∧ k < s + w)), (by omega : k < W)]

theorem getField_testBit (x s w k : Nat) :
    (getField x s w).testBit k = (decide (k < w) && x.testBit (s + k)) := by
  simp [getField, Nat.testBit_land, Nat.testBit_shiftRight, Nat.testBit_two_pow_sub_one,
    Bool.and_comm]

theorem getField_field_write_same (W x c s w : Nat) (hx : x < 2 ^ W) (hc : c < 2 ^ w)
    (hsw : s + w ≤ W) :
    getField ((x &&& ((2 ^ W - 1) ^^^ ((2 ^ w - 1) <<< s))) ||| (c <<< s)) s w = c := by
  apply Nat.eq_of_testBit_eq
  intro k
  rw [getField_testBit, testBit_field_write W x c s w (s + k) hx hc hsw]
  by_cases h : k < w
  · simp [h, (by omega : s ≤ s + k ∧ s + k < s + w)]
  · have hcb : c.testBit k = false :=
      Nat.testBit_lt_two_pow
        (lt_of_lt_of_le hc (Nat.pow_le_pow_right (by decide) (Nat.not_lt.mp h)))
    simp [h, hcb]

theorem field_write_lt (W x c s w : Nat) (hx : x < 2 ^ W) (hc : c < 2 ^ w)
    (hsw : s + w ≤ W) :
    (x &&& ((2 ^ W - 1) ^^^ ((2 ^ w - 1) <<< s))) ||| (c <<< s) < 2 ^ W := by
  apply Nat.or_lt_two_pow
  · exact lt_of_le_of_lt Nat.and_le_left hx
  · exact lt_of_lt_of_le (Nat.shiftLeft_lt hc) (Nat.pow_le_pow_right (by decide) (by omega))

theorem one_shiftLeft_lt (p W : Nat) (h : p < W) : (1 : Nat) <<< p < 2 ^ W := by
  rw [Nat.shiftLeft_eq, one_mul]
  exact Nat.pow_lt_pow_right (by decide) h

theorem testBit_one_shiftLeft (p k : Nat) : ((1 : Nat) <<< p).testBit k = decide (k = p) := by
  rw [Nat.shiftLeft_eq, one_mul]
  by_cases h : k = p
  · subst h
    simp [Nat.testBit_two_pow_self]
  · simp [h, Nat.testBit_two_pow_of_ne (fun hpk => h hpk.symm)]

theorem getField_congr_outside (v x s w : Nat)
    (h : ∀ k, s ≤ k → k < s + w → v.testBit k = x.testBit k) :
    getField v s w = getField x s w := by
  apply Nat.eq_of_testBit_eq
  intro k
  rw [getField_testBit, getField_testBit]
  by_cases hk : k < w
  · rw [h (s + k) (by omega) (by omega)]
  · simp [hk]

theorem fltControlWord_lt (en sel width : Nat) : fltControlWord en sel width < 2 ^ 8 := by
  unfold fltControlWord EXYNOS_EINT_FLTCON_WIDTH
  apply Nat.or_lt_two_pow
  · apply Nat.or_lt_two_pow
    · split_ifs <;> decide
    · split_ifs <;> decide
  · exact lt_of_le_of_lt Nat.and_le_right (by decide)

theorem flt_val_spec (x c m : Nat) (hx : x < 2 ^ 32) (hc : c < 2 ^ 8) (hm : m ≤ 3) :
    (x &&& compl32 (EXYNOS_EINT_FLTCON_MASK <<< (m * EXYNOS_EINT_FLTCON_LEN))
        ||| (c <<< (m * EXYNOS_EINT_FLTCON_LEN))) < 2 ^ 32
    ∧ getField (x &&& compl32 (EXYNOS_EINT_FLTCON_MASK <<< (m * EXYNOS_EINT_FLTCON_LEN))
        ||| (c <<< (m * EXYNOS_EINT_FLTCON_LEN))) (m * EXYNOS_EINT_FLTCON_LEN) 8 = c
    ∧ ∀ k, ¬ (m * EXYNOS_EINT_FLTCON_LEN ≤ k ∧ k < m * EXYNOS_EINT_FLTCON_LEN + 8) →
        (x &&& compl32 (EXYNOS_EINT_FLTCON_MASK <<< (m * EXYNOS_EINT_FLTCON_LEN))
          ||| (c <<< (m * EXYNOS_EINT_FLTCON_LEN))).testBit k = x.testBit k := by
  have e1 : EXYNOS_EINT_FLTCON_MASK = 2 ^ 8 - 1 := by decide
  have e2 : EXYNOS_EINT_FLTCON_LEN = 8 := by decide
  have hs : m * EXYNOS_EINT_FLTCON_LEN + 8 ≤ 32 := by
    simp only [e2]
    omega
  refine ⟨?_, ?_, ?_⟩
  · rw [e1, compl32]
    exact field_write_lt 32 x c _ 8 hx hc hs
  · rw [e1, compl32]
    exact getField_field_write_same 32 x c _ 8 hx hc hs
  · intro k hk
    rw [e1, compl32, testBit_field_write 32 x c _ 8 k hx hc hs, if_neg hk]

theorem flt_fold_spec (c : Nat) (hc : c < 2 ^ 8) :
    ∀ n, n ≤ 4 → ∀ f0 f1, f0 < 2 ^ 32 →
      ((List.range n).foldl (fltStep c) (f0, f1)).1 < 2 ^ 32
      ∧ (0 < n → ((List.range n).foldl (fltStep c) (f0, f1)).2
          = ((List.range n).foldl (fltStep c) (f0, f1)).1)
      ∧ (n = 0 → (List.range n).foldl (fltStep c) (f0, f1) = (f0, f1))
      ∧ ∀ j, j < n → getField ((List.range n).foldl (fltStep c) (f0, f1)).1
          (j * EXYNOS_EINT_FLTCON_LEN) 8 = c := by
  intro n
  induction n with
  | zero =>
    intro _ f0 f1 h0
    refine ⟨by simpa using h0, by omega, fun _ => by simp, fun j hj => by omega⟩
  | succ m ih =>
    intro hn f0 f1 h0
    obtain ⟨ih1, ih2, ih3, ih4⟩ := ih (by omega) f0 f1 h0
    rw [List.range_succ, List.foldl_append, List.foldl_cons, List.foldl_nil]
    obtain ⟨v1, v2, v3⟩ :=
      flt_val_spec ((List.range m).foldl (fltStep c) (f0, f1)).1 c m ih1 hc (by omega)
    have e2 : EXYNOS_EINT_FLTCON_LEN = 8 := by decide
    refine ⟨?_, ?_, ?_, ?_⟩
    · simpa [fltStep] using v1
    · intro _
      simp [fltStep]
    · omega
    · intro j hj
      by_cases hjm : j = m
      · subst hjm
        simpa [fltStep] using v2
      · have hfix : getField (fltStep c ((List.range m).foldl (fltStep c) (f0, f1)) m).1
            (j * EXYNOS_EINT_FLTCON_LEN) 8
              = getField ((List.range m).foldl (fltStep c) (f0, f1)).1
                  (j * EXYNOS_EINT_FLTCON_LEN) 8 := by
          apply getField_congr_outside
          intro k hk1 hk2
          have hout : ¬ (m * EXYNOS_EINT_FLTCON_LEN ≤ k
              ∧ k < m * EXYNOS_EINT_FLTCON_LEN + 8) := by
            simp only [e2] at hk1 hk2 ⊢
            omega
          simpa [fltStep] using v3 k hout
        rw [hfix]
        exact ih4 j (by omega)

theorem flt_config_spec (en sel width npins f0 f1 : Nat) (hn : npins ≤ 8)
    (h0 : f0 < 2 ^ 32) :
    (exynos_eint_flt_config en sel width npins f0 f1).1 < 2 ^ 32
    ∧ (0 < npins >>> 1 → (exynos_eint_flt_config en sel width npins f0 f1).2
        = (exynos_eint_flt_config en sel width npins f0 f1).1)
    ∧ (npins >>> 1 = 0 → exynos_eint_flt_config en sel width npins f0 f1 = (f0, f1))
    ∧ ∀ j, j < npins >>> 1 →
        getField (exynos_eint_flt_config en sel width npins f0 f1).1
          (j * EXYNOS_EINT_FLTCON_LEN) 8 = fltControlWord en sel width := by
  have hn4 : npins >>> 1 ≤ 4 := by
    have e : npins >>> 1 = npins / 2 := Nat.shiftRight_one npins
    omega
  exact flt_fold_spec (fltControlWord en sel width) (fltControlWord_lt en sel width)
    (npins >>> 1) hn4 f0 f1 h0

/-! ## C10: stack-dump lock restoration -/

/-- C10: on SMP, a single completed `_dump_stack` call restores the dump
serialization lock to its entry value: if `dump_lock` was `-1` (free) on
entry it is `-1` on exit, and if it already equalled the calling CPU's id
(a nested dump on the same CPU) it still equals that id on exit — the
function releases the lock only when it was the acquirer, so nested
same-CPU dumps never unlock an outer holder. -/
theorem C10_dump_stack_lock_restored (lock cpu : Int) :
    (lock = -1 → _dump_stack lock cpu = some (-1))
    ∧ (lock = cpu → _dump_stack lock cpu = some lock) := by
  constructor
  · intro h
    subst h
    simp [_dump_stack, dump_stack_acquire]
  · intro h
    rw [← h]
    unfold _dump_stack dump_stack_acquire
    by_cases h1 : lock = -1
    · simp [h1]
    · simp [h1]

theorem C10_dump_stack_witness :
    _dump_stack (-1) 5 = some (-1) ∧ _dump_stack 7 7 = some 7 :=
  ⟨(C10_dump_stack_lock_restored (-1) 5).1 rfl, (C10_dump_stack_lock_restored 7 7).2 rfl⟩

/-! ## C6: primary GPIO dispatch decode -/

/-- C6: for every decoded service-register value in the primary GPIO
dispatch handler: group `0` returns handled without any dispatch; group
`g > 0` selects the bank at index `g - 1` and translates the pin index to
that bank's virtual line; an unmapped pin returns "not mine" without
dispatching; otherwise exactly one generic dispatch call is invoked for
that virtual line. -/
theorem C6_gpio_dispatch (revmap : Nat → Nat → Nat) (svc : Nat) :
    (EXYNOS_SVC_GROUP svc = 0 →
      exynos_eint_gpio_irq revmap svc = (IrqReturn.handled, []))
    ∧ (EXYNOS_SVC_GROUP svc ≠ 0 →
        revmap (EXYNOS_SVC_GROUP svc - 1) (svc &&& EXYNOS_SVC_NUM_MASK) = 0 →
        exynos_eint_gpio_irq revmap svc = (IrqReturn.notMine, []))
    ∧ (EXYNOS_SVC_GROUP svc ≠ 0 →
        revmap (EXYNOS_SVC_GROUP svc - 1) (svc &&& EXYNOS_SVC_NUM_MASK) ≠ 0 →
        exynos_eint_gpio_irq revmap svc
          = (IrqReturn.handled,
              [revmap (EXYNOS_SVC_GROUP svc - 1) (svc &&& EXYNOS_SVC_NUM_MASK)])) := by
  refine ⟨?_, ?_, ?_⟩
  · intro h
    simp [exynos_eint_gpio_irq, h]
  · intro h h2
    simp [exynos_eint_gpio_irq, h, h2]
  · intro h h2
    simp [exynos_eint_gpio_irq, h, h2]

/-- Witness for C6: the spec's end-to-end scenario, a service register
reporting group 1 and pin 3 resolves to bank index 0, that bank's virtual
line for pin 3, and exactly one dispatch. -/
theorem C6_gpio_dispatch_witness :
    exynos_eint_gpio_irq (fun b p => 100 + 10 * b + p) 11 = (IrqReturn.handled, [103]) :=
  (C6_gpio_dispatch (fun b p => 100 + 10 * b + p) 11).2.2 (by decide) (by decide)

/-! ## C7: unsupported trigger kinds -/

/-- C7: for every trigger kind outside the five supported kinds,
`exynos_irq_set_type` fails with `-EINVAL`, performs no control-register
write, and does not reprogram the generic handling primitive: the returned
state is the input state, unchanged. -/
theorem C7_invalid_trigger_type (hwirq type : Nat) (s : EintLine)
    (h1 : type ≠ IRQ_TYPE_EDGE_RISING) (h2 : type ≠ IRQ_TYPE_EDGE_FALLING)
    (h3 : type ≠ IRQ_TYPE_EDGE_BOTH) (h4 : type ≠ IRQ_TYPE_LEVEL_HIGH)
    (h5 : type ≠ IRQ_TYPE_LEVEL_LOW) :
    exynos_irq_set_type hwirq type s = (-22, s) := by
  unfold exynos_irq_set_type exynos_trig_type
  simp [h1, h2, h3, h4, h5]

theorem C7_invalid_trigger_type_witness :
    exynos_irq_set_type 2 0 ⟨0x12345678, IrqHandler.other⟩
      = (-22, ⟨0x12345678, IrqHandler.other⟩) :=
  C7_invalid_trigger_type 2 0 ⟨0x12345678, IrqHandler.other⟩
    (by decide) (by decide) (by decide) (by decide) (by decide)

/-! ## C5: global wake mask -/

/-- C5: the global wake mask starts with all 32 bits set; enabling wake for
a line clears exactly the bit at `2 * eint_offset + hwirq` and changes no
other bit; disabling wake sets exactly that bit and changes no other bit. -/
theorem C5_set_wake (wake_mask eint_offset hwirq on_ : Nat)
    (hm : wake_mask < 2 ^ 32) (hpos : 2 * eint_offset + hwirq < 32) :
    exynos_eint_wake_mask_init = 2 ^ 32 - 1
    ∧ (on_ ≠ 0 →
        (exynos_wkup_irq_set_wake wake_mask eint_offset hwirq on_).testBit
            (2 * eint_offset + hwirq) = false
        ∧ ∀ k, k ≠ 2 * eint_offset + hwirq →
            (exynos_wkup_irq_set_wake wake_mask eint_offset hwirq on_).testBit k
              = wake_mask.testBit k)
    ∧ (on_ = 0 →
        (exynos_wkup_irq_set_wake wake_mask eint_offset hwirq on_).testBit
            (2 * eint_offset + hwirq) = true
        ∧ ∀ k, k ≠ 2 * eint_offset + hwirq →
            (exynos_wkup_irq_set_wake wake_mask eint_offset hwirq on_).testBit k
              = wake_mask.testBit k) := by
  have hbit : (1 : Nat) <<< (2 * eint_offset + hwirq) < 2 ^ 64 :=
    one_shiftLeft_lt _ 64 (by omega)
  refine ⟨by decide, ?_, ?_⟩
  · intro hon
    simp only [exynos_wkup_irq_set_wake]
    rw [if_neg hon]
    constructor
    · rw [compl64, Nat.testBit_mod_two_pow, Nat.testBit_land, testBit_compl 64 _ _ hbit,
        testBit_one_shiftLeft]
      simp [hpos]
    · intro k hk
      rw [compl64, Nat.testBit_mod_two_pow, Nat.testBit_land, testBit_compl 64 _ _ hbit,
        testBit_one_shiftLeft]
      by_cases hk32 : k < 32
      · simp [hk32, hk, (by omega : k < 64)]
      · have : wake_mask.testBit k = false :=
          Nat.testBit_lt_two_pow
            (lt_of_lt_of_le hm (Nat.pow_le_pow_right (by decide) (Nat.not_lt.mp hk32)))
        simp [hk32, this]
  · intro hon
    simp only [exynos_wkup_irq_set_wake]
    rw [if_pos hon]
    constructor
    · rw [Nat.testBit_mod_two_pow, Nat.testBit_lor, testBit_one_shiftLeft]
      simp [hpos]
    · intro k hk
      rw [Nat.testBit_mod_two_pow, Nat.testBit_lor, testBit_one_shiftLeft]
      by_cases hk32 : k < 32
      · simp [hk32, hk]
      · have : wake_mask.testBit k = false :=
          Nat.testBit_lt_two_pow
            (lt_of_lt_of_le hm (Nat.pow_le_pow_right (by decide) (Nat.not_lt.mp hk32)))
        simp [hk32, this]

theorem C5_set_wake_witness :
    exynos_eint_wake_mask_init = 2 ^ 32 - 1
    ∧ ((1 : Nat) ≠ 0 →
        (exynos_wkup_irq_set_wake (2 ^ 32 - 1) 4 3 1).testBit (2 * 4 + 3) = false
        ∧ ∀ k, k ≠ 2 * 4 + 3 →
            (exynos_wkup_irq_set_wake (2 ^ 32 - 1) 4 3 1).testBit k
              = (2 ^ 32 - 1 : Nat).testBit k)
    ∧ ((1 : Nat) = 0 →
        (exynos_wkup_irq_set_wake (2 ^ 32 - 1) 4 3 1).testBit (2 * 4 + 3) = true
        ∧ ∀ k, k ≠ 2 * 4 + 3 →
            (exynos_wkup_irq_set_wake (2 ^ 32 - 1) 4 3 1).testBit k
              = (2 ^ 32 - 1 : Nat).testBit k) :=
  C5_set_wake (2 ^ 32 - 1) 4 3 1 (by decide) (by decide)

/-! ## C2: unmask acknowledges level-triggered lines first -/

/-- C2: for a line whose configured trigger is a level type, unmask first
acknowledges (writes bit `hwirq` to the pending register) and then clears
bit `hwirq` in the mask register — exactly one acknowledge-then-unmask
write pair, with the pending bit already cleared (and the mask register
still untouched) after the first write; for a non-level-configured line no
acknowledge write is issued at all. -/
theorem C2_unmask_level_ack (trigger_type hwirq : Nat) (s : EintRegs) (hw : hwirq < 32) :
    (trigger_type &&& IRQ_TYPE_LEVEL_MASK ≠ 0 →
      exynos_irq_unmask trigger_type hwirq s
        = [EintWrite.pendWrite (1 <<< hwirq),
           EintWrite.maskWrite (s.mask &&& compl64 (1 <<< hwirq))]
      ∧ ((applyWrite s (EintWrite.pendWrite (1 <<< hwirq))).pend.testBit hwirq = false
          ∧ (applyWrite s (EintWrite.pendWrite (1 <<< hwirq))).mask = s.mask)
      ∧ ((applyWrites s (exynos_irq_unmask trigger_type hwirq s)).pend.testBit hwirq = false
          ∧ (applyWrites s (exynos_irq_unmask trigger_type hwirq s)).mask.testBit hwirq
              = false))
    ∧ (trigger_type &&& IRQ_TYPE_LEVEL_MASK = 0 →
      exynos_irq_unmask trigger_type hwirq s
        = [EintWrite.maskWrite (s.mask &&& compl64 (1 <<< hwirq))]
      ∧ ∀ v, EintWrite.pendWrite v ∉ exynos_irq_unmask trigger_type hwirq s) := by
  have h32 : (1 : Nat) <<< hwirq < 2 ^ 32 := one_shiftLeft_lt _ 32 hw
  have h64 : (1 : Nat) <<< hwirq < 2 ^ 64 := one_shiftLeft_lt _ 64 (by omega)
  have hpend : (s.pend &&& compl32 (1 <<< hwirq)).testBit hwirq = false := by
    rw [Nat.testBit_land, compl32, testBit_compl 32 _ _ h32, testBit_one_shiftLeft]
    simp
  have hmask : (s.mask &&& compl64 (1 <<< hwirq)).testBit hwirq = false := by
    rw [Nat.testBit_land, compl64, testBit_compl 64 _ _ h64, testBit_one_shiftLeft]
    simp
  constructor
  · intro h
    refine ⟨?_, ⟨hpend, rfl⟩, ?_⟩
    · simp [exynos_irq_unmask, exynos_irq_ack, h, applyWrites, applyWrite]
    · constructor
      · simp [exynos_irq_unmask, exynos_irq_ack, h, applyWrites, applyWrite, hpend]
      · simp [exynos_irq_unmask, exynos_irq_ack, h, applyWrites, applyWrite, hmask]
  · intro h
    constructor
    · simp [exynos_irq_unmask, exynos_irq_ack, h, applyWrites, applyWrite]
    · intro v
      simp [exynos_irq_unmask, exynos_irq_ack, h, applyWrites, applyWrite]

/-! ## C3: trigger-type programming -/

theorem exynos_con_write_spec (con trig shift : Nat) (hcon : con < 2 ^ 32) (htr : trig < 8)
    (hs : shift + 3 ≤ 32) :
    getField (con &&& compl32 (EXYNOS_EINT_CON_MASK <<< shift) ||| (trig <<< shift)) shift 3
        = trig
    ∧ ∀ k, ¬ (shift ≤ k ∧ k < shift + 3) →
        (con &&& compl32 (EXYNOS_EINT_CON_MASK <<< shift) ||| (trig <<< shift)).testBit k
          = con.testBit k := by
  have e : EXYNOS_EINT_CON_MASK = 2 ^ 3 - 1 := by decide
  have e8 : trig < 2 ^ 3 := htr
  constructor
  · rw [e, compl32]
    exact getField_field_write_same 32 con trig shift 3 hcon e8 hs
  · intro k hk
    rw [e, compl32, testBit_field_write 32 con trig shift 3 k hcon e8 hs, if_neg hk]

/-- C3 counterexample: rising edge is one of the five supported kinds and is
different from the both-edges kind, yet `exynos_irq_set_type` installs the
edge-style handling primitive for it — the code tests
`type & IRQ_TYPE_EDGE_BOTH`, which is non-zero for every edge kind — while
the claim requires level-style for every supported kind other than
both-edges. -/
theorem C3_set_type_counterexample :
    exynos_trig_type IRQ_TYPE_EDGE_RISING = some EXYNOS_EINT_EDGE_RISING
    ∧ IRQ_TYPE_EDGE_RISING ≠ IRQ_TYPE_EDGE_BOTH
    ∧ (exynos_irq_set_type 0 IRQ_TYPE_EDGE_RISING ⟨0, IrqHandler.level⟩).2.handler
        = IrqHandler.edge := by
  decide

/-- C3 (amended): for every line and every supported trigger kind,
`exynos_irq_set_type` succeeds, writes exactly the 3-bit hardware code
mapped for that kind into the control register at bit offset
`EXYNOS_EINT_CON_LEN * hwirq`, leaves all other control-register bits
unchanged, and reprograms the generic handling primitive to edge-style for
every edge kind (rising, falling, both edges) and to level-style for the
level kinds (level-high, level-low). -/
theorem C3_set_type_amended (hwirq type : Nat) (s : EintLine) (hw : hwirq ≤ 7)
    (hcon : s.con < 2 ^ 32) (trig : Nat) (htrig : exynos_trig_type type = some trig) :
    (exynos_irq_set_type hwirq type s).1 = 0
    ∧ getField (exynos_irq_set_type hwirq type s).2.con (EXYNOS_EINT_CON_LEN * hwirq) 3 = trig
    ∧ (∀ k, ¬ (EXYNOS_EINT_CON_LEN * hwirq ≤ k ∧ k < EXYNOS_EINT_CON_LEN * hwirq + 3) →
        (exynos_irq_set_type hwirq type s).2.con.testBit k = s.con.testBit k)
    ∧ (exynos_irq_set_type hwirq type s).2.handler
        = (if type = IRQ_TYPE_LEVEL_HIGH ∨ type = IRQ_TYPE_LEVEL_LOW
            then IrqHandler.level else IrqHandler.edge) := by
  have hsh : EXYNOS_EINT_CON_LEN * hwirq + 3 ≤ 32 := by
    have h4 : EXYNOS_EINT_CON_LEN = 4 := by decide
    simp only [h4]
    omega
  have hcases : (type = IRQ_TYPE_EDGE_RISING ∧ trig = EXYNOS_EINT_EDGE_RISING)
      ∨ (type = IRQ_TYPE_EDGE_FALLING ∧ trig = EXYNOS_EINT_EDGE_FALLING)
      ∨ (type = IRQ_TYPE_EDGE_BOTH ∧ trig = EXYNOS_EINT_EDGE_BOTH)
      ∨ (type = IRQ_TYPE_LEVEL_HIGH ∧ trig = EXYNOS_EINT_LEVEL_HIGH)
      ∨ (type = IRQ_TYPE_LEVEL_LOW ∧ trig = EXYNOS_EINT_LEVEL_LOW) := by
    revert htrig
    unfold exynos_trig_type
    split_ifs with h1 h2 h3 h4 h5 <;> intro ht
    · exact Or.inl ⟨h1, (Option.some.inj ht).symm⟩
    · exact Or.inr (Or.inl ⟨h2, (Option.some.inj ht).symm⟩)
    · exact Or.inr (Or.inr (Or.inl ⟨h3, (Option.some.inj ht).symm⟩))
    · exact Or.inr (Or.inr (Or.inr (Or.inl ⟨h4, (Option.some.inj ht).symm⟩)))
    · exact Or.inr (Or.inr (Or.inr (Or.inr ⟨h5, (Option.some.inj ht).symm⟩)))
    · exact ht.elim
  have htr8 : trig < 8 := by
    rcases hcases with ⟨_, h⟩ | ⟨_, h⟩ | ⟨_, h⟩ | ⟨_, h⟩ | ⟨_, h⟩ <;> subst h <;> decide
  have hhandler :
      (if type &&& IRQ_TYPE_EDGE_BOTH ≠ 0 then IrqHandler.edge else IrqHandler.level)
        = if type = IRQ_TYPE_LEVEL_HIGH ∨ type = IRQ_TYPE_LEVEL_LOW
            then IrqHandler.level else IrqHandler.edge := by
    rcases hcases with ⟨h, _⟩ | ⟨h, _⟩ | ⟨h, _⟩ | ⟨h, _⟩ | ⟨h, _⟩ <;> subst h <;> decide
  simp only [exynos_irq_set_type, htrig]
  exact ⟨by trivial, (exynos_con_write_spec s.con trig _ hcon htr8 hsh).1,
    (exynos_con_write_spec s.con trig _ hcon htr8 hsh).2, hhandler⟩

/-- Witness for the amended C3, at line 0 with the both-edges kind on an
all-zero control register. -/
theorem C3_set_type_amended_witness :
    (exynos_irq_set_type 0 IRQ_TYPE_EDGE_BOTH ⟨0, IrqHandler.other⟩).1 = 0
    ∧ getField (exynos_irq_set_type 0 IRQ_TYPE_EDGE_BOTH ⟨0, IrqHandler.other⟩).2.con
        (EXYNOS_EINT_CON_LEN * 0) 3 = EXYNOS_EINT_EDGE_BOTH
    ∧ (∀ k, ¬ (EXYNOS_EINT_CON_LEN * 0 ≤ k ∧ k < EXYNOS_EINT_CON_LEN * 0 + 3) →
        (exynos_irq_set_type 0 IRQ_TYPE_EDGE_BOTH ⟨0, IrqHandler.other⟩).2.con.testBit k
          = (⟨0, IrqHandler.other⟩ : EintLine).con.testBit k)
    ∧ (exynos_irq_set_type 0 IRQ_TYPE_EDGE_BOTH ⟨0, IrqHandler.other⟩).2.handler
        = (if IRQ_TYPE_EDGE_BOTH = IRQ_TYPE_LEVEL_HIGH ∨ IRQ_TYPE_EDGE_BOTH = IRQ_TYPE_LEVEL_LOW
            then IrqHandler.level else IrqHandler.edge) :=
  C3_set_type_amended 0 IRQ_TYPE_EDGE_BOTH ⟨0, IrqHandler.other⟩ (by decide) (by decide)
    EXYNOS_EINT_EDGE_BOTH (by decide)

/-- Witness for C2: the spec's regression scenario, a level-high line
(trigger type `IRQ_TYPE_LEVEL_HIGH`) at bit 3. -/
theorem C2_unmask_level_ack_witness :
    IRQ_TYPE_LEVEL_HIGH &&& IRQ_TYPE_LEVEL_MASK ≠ 0
    ∧ exynos_irq_unmask IRQ_TYPE_LEVEL_HIGH 3 ⟨0xff, 0xff⟩
        = [EintWrite.pendWrite (1 <<< 3),
           EintWrite.maskWrite ((0xff : Nat) &&& compl64 (1 <<< 3))] :=
  ⟨by decide,
    (((C2_unmask_level_ack IRQ_TYPE_LEVEL_HIGH 3 ⟨0xff, 0xff⟩ (by decide)).1 (by decide)).1)⟩

/-! ## C9: glitch-filter configuration -/

/-- C9: for every bank, `exynos_eint_flt_config` builds a single control
word from the enable flag, select flag, and width, and for each pin-pair of
the bank (pins taken two at a time) writes that same control word into both
the primary and the paired filter sub-register at the per-pair bit offset,
so that afterwards every pin-pair field of both sub-registers holds the
built control word. -/
theorem C9_flt_config_pairs (en sel width npins f0 f1 : Nat) (hn : npins ≤ 8)
    (h0 : f0 < 2 ^ 32) :
    ∀ j, j < npins >>> 1 →
      getField (exynos_eint_flt_config en sel width npins f0 f1).1
          (j * EXYNOS_EINT_FLTCON_LEN) 8 = fltControlWord en sel width
      ∧ getField (exynos_eint_flt_config en sel width npins f0 f1).2
          (j * EXYNOS_EINT_FLTCON_LEN) 8 = fltControlWord en sel width := by
  obtain ⟨h1, h2, h3, h4⟩ := flt_config_spec en sel width npins f0 f1 hn h0
  intro j hj
  refine ⟨h4 j hj, ?_⟩
  rw [h2 (by omega)]
  exact h4 j hj

/-- Witness for C9: an enabled majority-select filter of width 0 on an
8-pin bank with both filter registers initially 0, checked at pin-pair 2. -/
theorem C9_flt_config_pairs_witness :
    getField (exynos_eint_flt_config 0x80 0x40 0 8 0 0).1 (2 * EXYNOS_EINT_FLTCON_LEN) 8
        = fltControlWord 0x80 0x40 0
    ∧ getField (exynos_eint_flt_config 0x80 0x40 0 8 0 0).2 (2 * EXYNOS_EINT_FLTCON_LEN) 8
        = fltControlWord 0x80 0x40 0 :=
  C9_flt_config_pairs 0x80 0x40 0 8 0 0 (by decide) (by decide) 2 (by decide)

/-! ## C4: suspend / resume -/

/-- C4: for every GPIO-demuxed bank, suspend immediately followed by resume
leaves the bank's control register and both filter registers bit-identical
to their pre-suspend values (the three saved words are written back
verbatim); for every wakeup bank (direct or muxed), suspend switches every
pin-pair field of its glitch filter to the analog control word (digital
filter select cleared) and resume switches it back to the
digital/majority-select control word, the same one programmed at
initialization. -/
theorem C4_suspend_resume (banks : List BankDesc) (s : PinctrlState) (i : Nat) (b : BankDesc)
    (hb : banks[i]? = some b) (hpins : b.nr_pins ≤ 8)
    (h0 : (s.regs i).fltcon0 < 2 ^ 32) :
    (b.eint_type = EintType.gpio →
      (exynos_pinctrl_resume banks (exynos_pinctrl_suspend banks s)).regs i = s.regs i)
    ∧ ((b.eint_type = EintType.wkup ∨ b.eint_type = EintType.wkupMux) →
        ∀ j, j < b.nr_pins >>> 1 →
          (getField ((exynos_pinctrl_suspend banks s).regs i).fltcon0
              (j * EXYNOS_EINT_FLTCON_LEN) 8 = fltControlWord EXYNOS_EINT_FLTCON_EN 0 0
            ∧ getField ((exynos_pinctrl_suspend banks s).regs i).fltcon1
              (j * EXYNOS_EINT_FLTCON_LEN) 8 = fltControlWord EXYNOS_EINT_FLTCON_EN 0 0)
          ∧ (getField ((exynos_pinctrl_resume banks
                (exynos_pinctrl_suspend banks s)).regs i).fltcon0
              (j * EXYNOS_EINT_FLTCON_LEN) 8
                = fltControlWord EXYNOS_EINT_FLTCON_EN EXYNOS_EINT_FLTCON_SEL 0
            ∧ getField ((exynos_pinctrl_resume banks
                (exynos_pinctrl_suspend banks s)).regs i).fltcon1
              (j * EXYNOS_EINT_FLTCON_LEN) 8
                = fltControlWord EXYNOS_EINT_FLTCON_EN EXYNOS_EINT_FLTCON_SEL 0)) := by
  constructor
  · intro hty
    simp [exynos_pinctrl_resume, exynos_pinctrl_suspend, hb, hty,
      exynos_pinctrl_resume_bank, exynos_pinctrl_suspend_bank]
  · intro hty j hj
    have hs1 : (exynos_pinctrl_suspend banks s).regs i
        = fltConfigBank EXYNOS_EINT_FLTCON_EN 0 b (s.regs i) := by
      rcases hty with h | h <;> simp [exynos_pinctrl_suspend, hb, h]
    have hs2 : (exynos_pinctrl_resume banks (exynos_pinctrl_suspend banks s)).regs i
        = fltConfigBank EXYNOS_EINT_FLTCON_EN EXYNOS_EINT_FLTCON_SEL b
            ((exynos_pinctrl_suspend banks s).regs i) := by
      rcases hty with h | h <;> simp [exynos_pinctrl_resume, hb, h]
    rw [hs2, hs1]
    simp only [fltConfigBank]
    obtain ⟨a1, a2, a3, a4⟩ := flt_config_spec EXYNOS_EINT_FLTCON_EN 0 0 b.nr_pins
      (s.regs i).fltcon0 (s.regs i).fltcon1 hpins h0
    obtain ⟨c1, c2, c3, c4⟩ := flt_config_spec EXYNOS_EINT_FLTCON_EN EXYNOS_EINT_FLTCON_SEL 0
      b.nr_pins
      (exynos_eint_flt_config EXYNOS_EINT_FLTCON_EN 0 0 b.nr_pins
        (s.regs i).fltcon0 (s.regs i).fltcon1).1
      (exynos_eint_flt_config EXYNOS_EINT_FLTCON_EN 0 0 b.nr_pins
        (s.regs i).fltcon0 (s.regs i).fltcon1).2 hpins a1
    refine ⟨⟨a4 j hj, ?_⟩, c4 j hj, ?_⟩
    · rw [a2 (by omega)]
      exact a4 j hj
    · rw [c2 (by omega)]
      exact c4 j hj

/-- Witness for C4: a two-bank controller (one GPIO-demuxed bank at index
0 and one direct wakeup bank of 8 pins at index 1): the GPIO bank's
registers survive suspend-then-resume, and the wakeup bank's pin-pair 0
filter field is analog after suspend and digital after resume. -/
theorem C4_suspend_resume_witness :
    (exynos_pinctrl_resume
        [BankDesc.mk EintType.gpio 8, BankDesc.mk EintType.wkup 8]
        (exynos_pinctrl_suspend
          [BankDesc.mk EintType.gpio 8, BankDesc.mk EintType.wkup 8]
          ⟨fun _ => ⟨5, 6, 7⟩, fun _ => ⟨0, 0, 0⟩⟩)).regs 0
      = (⟨fun _ => ⟨5, 6, 7⟩, fun _ => ⟨0, 0, 0⟩⟩ : PinctrlState).regs 0
    ∧ ((getField ((exynos_pinctrl_suspend
            [BankDesc.mk EintType.gpio 8, BankDesc.mk EintType.wkup 8]
            ⟨fun _ => ⟨5, 6, 7⟩, fun _ => ⟨0, 0, 0⟩⟩).regs 1).fltcon0
          (0 * EXYNOS_EINT_FLTCON_LEN) 8 = fltControlWord EXYNOS_EINT_FLTCON_EN 0 0
        ∧ getField ((exynos_pinctrl_suspend
            [BankDesc.mk EintType.gpio 8, BankDesc.mk EintType.wkup 8]
            ⟨fun _ => ⟨5, 6, 7⟩, fun _ => ⟨0, 0, 0⟩⟩).regs 1).fltcon1
          (0 * EXYNOS_EINT_FLTCON_LEN) 8 = fltControlWord EXYNOS_EINT_FLTCON_EN 0 0)
      ∧ (getField ((exynos_pinctrl_resume
            [BankDesc.mk EintType.gpio 8, BankDesc.mk EintType.wkup 8]
            (exynos_pinctrl_suspend
              [BankDesc.mk EintType.gpio 8, BankDesc.mk EintType.wkup 8]
              ⟨fun _ => ⟨5, 6, 7⟩, fun _ => ⟨0, 0, 0⟩⟩)).regs 1).fltcon0
          (0 * EXYNOS_EINT_FLTCON_LEN) 8
            = fltControlWord EXYNOS_EINT_FLTCON_EN EXYNOS_EINT_FLTCON_SEL 0
        ∧ getField ((exynos_pinctrl_resume
            [BankDesc.mk EintType.gpio 8, BankDesc.mk EintType.wkup 8]
            (exynos_pinctrl_suspend
              [BankDesc.mk EintType.gpio 8, BankDesc.mk EintType.wkup 8]
              ⟨fun _ => ⟨5, 6, 7⟩, fun _ => ⟨0, 0, 0⟩⟩)).regs 1).fltcon1
          (0 * EXYNOS_EINT_FLTCON_LEN) 8
            = fltControlWord EXYNOS_EINT_FLTCON_EN EXYNOS_EINT_FLTCON_SEL 0)) :=
  ⟨(C4_suspend_resume
      [BankDesc.mk EintType.gpio 8, BankDesc.mk EintType.wkup 8]
      ⟨fun _ => ⟨5, 6, 7⟩, fun _ => ⟨0, 0, 0⟩⟩ 0 (BankDesc.mk EintType.gpio 8)
      rfl (by decide) (by decide)).1 rfl,
    (C4_suspend_resume
      [BankDesc.mk EintType.gpio 8, BankDesc.mk EintType.wkup 8]
      ⟨fun _ => ⟨5, 6, 7⟩, fun _ => ⟨0, 0, 0⟩⟩ 1 (BankDesc.mk EintType.wkup 8)
      rfl (by decide) (by decide)).2 (Or.inl rfl) 0 (by decide)⟩

/-! ## C1: muxed-wakeup demultiplexing -/

theorem demux_zero : exynos_irq_demux_eint 0 = [] := by
  conv_lhs => rw [exynos_irq_demux_eint]
  simp

theorem demux_pos (pend : Nat) (h : pend ≠ 0) :
    exynos_irq_demux_eint pend
      = Nat.log2 pend :: exynos_irq_demux_eint (pend - 2 ^ Nat.log2 pend) := by
  conv_lhs => rw [exynos_irq_demux_eint]
  simp [h]

theorem sub_top_eq_mod (pend : Nat) (h : pend ≠ 0) :
    pend - 2 ^ Nat.log2 pend = pend % 2 ^ Nat.log2 pend := by
  have h1 : 2 ^ Nat.log2 pend ≤ pend := Nat.log2_self_le h
  have h2 : pend < 2 ^ (Nat.log2 pend + 1) := Nat.lt_log2_self
  have h3 : 2 ^ (Nat.log2 pend + 1) = 2 ^ Nat.log2 pend * 2 := by rw [Nat.pow_succ]
  rw [Nat.mod_eq_sub_mod h1, Nat.mod_eq_of_lt (by omega)]

theorem testBit_log2_self (pend : Nat) (h : pend ≠ 0) :
    pend.testBit (Nat.log2 pend) = true := by
  have h1 : 2 ^ Nat.log2 pend ≤ pend := Nat.log2_self_le h
  have h2 : pend < 2 ^ (Nat.log2 pend + 1) := Nat.lt_log2_self
  have h3 : 2 ^ (Nat.log2 pend + 1) = 2 ^ Nat.log2 pend * 2 := by rw [Nat.pow_succ]
  have hpos : 0 < 2 ^ Nat.log2 pend := Nat.two_pow_pos _
  have hdiv : pend / 2 ^ Nat.log2 pend = 1 := by
    have hge : 1 ≤ pend / 2 ^ Nat.log2 pend := (Nat.le_div_iff_mul_le hpos).mpr (by omega)
    have hlt : pend / 2 ^ Nat.log2 pend < 2 := (Nat.div_lt_iff_lt_mul hpos).mpr (by omega)
    omega
  rw [Nat.testBit_to_div_mod, hdiv]
  decide

theorem testBit_gt_log2 (pend j : Nat) (hj : Nat.log2 pend < j) :
    pend.testBit j = false := by
  by_cases h : pend = 0
  · subst h
    exact Nat.zero_testBit j
  · have h2 : pend < 2 ^ (Nat.log2 pend + 1) := Nat.lt_log2_self
    exact Nat.testBit_lt_two_pow
      (lt_of_lt_of_le h2 (Nat.pow_le_pow_right (by decide) (by omega)))

theorem demux_mem (pend j : Nat) :
    j ∈ exynos_irq_demux_eint pend ↔ pend.testBit j = true := by
  induction pend using Nat.strong_induction_on generalizing j with
  | _ pend ih =>
    by_cases h : pend = 0
    · subst h
      simp [demux_zero, Nat.zero_testBit]
    · rw [demux_pos pend h, List.mem_cons,
        ih _ (Nat.sub_lt (Nat.pos_of_ne_zero h) (Nat.two_pow_pos _)) j,
        sub_top_eq_mod pend h, Nat.testBit_mod_two_pow]
      by_cases hjb : j = Nat.log2 pend
      · subst hjb
        simp [testBit_log2_self pend h]
      · by_cases hlt : j < Nat.log2 pend
        · simp [hjb, hlt]
        · have hhi : pend.testBit j = false := testBit_gt_log2 pend j (by omega)
          simp [hjb, hlt, hhi]

theorem demux_sorted (pend : Nat) : (exynos_irq_demux_eint pend).Sorted (· > ·) := by
  induction pend using Nat.strong_induction_on with
  | _ pend ih =>
    by_cases h : pend = 0
    · subst h
      simp [demux_zero]
    · rw [demux_pos pend h]
      have hrest : pend - 2 ^ Nat.log2 pend < pend :=
        Nat.sub_lt (Nat.pos_of_ne_zero h) (Nat.two_pow_pos _)
      rw [List.sorted_cons]
      refine ⟨?_, ih _ hrest⟩
      intro x hx
      rw [demux_mem _ x] at hx
      by_contra hge
      push_neg at hge
      have h2 : pend < 2 ^ (Nat.log2 pend + 1) := Nat.lt_log2_self
      have h3 : 2 ^ (Nat.log2 pend + 1) = 2 ^ Nat.log2 pend * 2 := by rw [Nat.pow_succ]
      have h1 : 2 ^ Nat.log2 pend ≤ pend := Nat.log2_self_le h
      have hlt : pend - 2 ^ Nat.log2 pend < 2 ^ x := by
        have hsm : pend - 2 ^ Nat.log2 pend < 2 ^ Nat.log2 pend := by omega
        exact lt_of_lt_of_le hsm (Nat.pow_le_pow_right (by decide) hge)
      rw [Nat.testBit_lt_two_pow hlt] at hx
      exact absurd hx (by simp)

theorem demux_nodup (pend : Nat) : (exynos_irq_demux_eint pend).Nodup :=
  (demux_sorted pend).nodup

theorem demux_count (pend j : Nat) (h : pend.testBit j = true) :
    List.count j (exynos_irq_demux_eint pend) = 1 :=
  List.count_eq_one_of_mem (demux_nodup pend) ((demux_mem pend j).mpr h)

theorem demux_banks_fst_ge (l : List (Nat × Nat)) :
    ∀ n e, e ∈ exynos_demux_banks n l → n ≤ e.1 := by
  induction l with
  | nil =>
    intro n e he
    simp [exynos_demux_banks] at he
  | cons b rest ih =>
    intro n e he
    simp only [exynos_demux_banks, List.mem_append, List.mem_map] at he
    rcases he with ⟨irq, _, rfl⟩ | he
    · exact le_refl n
    · exact le_trans (by omega) (ih (n + 1) e he)

theorem demux_banks_filter (l : List (Nat × Nat)) :
    ∀ n i (h : i < l.length),
      (exynos_demux_banks n l).filter (fun e => e.1 == n + i)
        = (exynos_irq_demux_eint
            ((l.get ⟨i, h⟩).1 &&& compl64 (l.get ⟨i, h⟩).2)).map (fun irq => (n + i, irq)) := by
  induction l with
  | nil =>
    intro n i h
    simp at h
  | cons b rest ih =>
    intro n i h
    simp only [exynos_demux_banks, List.filter_append]
    cases i with
    | zero =>
      simp only [Nat.add_zero]
      have h1 : (List.map (fun irq => (n, irq))
            (exynos_irq_demux_eint (b.1 &&& compl64 b.2))).filter (fun e => e.1 == n)
          = List.map (fun irq => (n, irq)) (exynos_irq_demux_eint (b.1 &&& compl64 b.2)) := by
        rw [List.filter_map]
        congr 1
        apply List.filter_eq_self.mpr
        intro a _
        simp
      have h2 : (exynos_demux_banks (n + 1) rest).filter (fun e => e.1 == n) = [] := by
        rw [List.filter_eq_nil_iff]
        intro e he
        have := demux_banks_fst_ge rest (n + 1) e he
        simp only [beq_iff_eq]
        omega
      rw [h1, h2, List.append_nil]
      rfl
    | succ i' =>
      have hlen : i' < rest.length := by
        simp at h
        omega
      have h1 : (List.map (fun irq => (n, irq))
            (exynos_irq_demux_eint (b.1 &&& compl64 b.2))).filter
              (fun e => e.1 == n + (i' + 1)) = [] := by
        rw [List.filter_eq_nil_iff]
        intro e he
        rcases List.mem_map.mp he with ⟨irq, _, rfl⟩
        simp only [beq_iff_eq]
        show ¬ (n = n + (i' + 1))
        omega
      have hadd : n + (i' + 1) = (n + 1) + i' := by omega
      rw [h1, List.nil_append, hadd, ih (n + 1) i' hlen]
      rfl

/-- C1: for every muxed-wakeup dispatch and every bank of the group, the
handler computes the working value `pend & ~mask` from that bank's pending
and mask registers, and the dispatches tagged with that bank are exactly
the set bits of the working value, each dispatched exactly once, in
strictly descending bit-index order, all emitted (the working value
exhausted) before the handler moves on and returns. -/
theorem C1_muxed_demux (banks : List (Nat × Nat)) (i : Nat) (h : i < banks.length) :
    ((exynos_irq_demux_eint16_31 banks).filter (fun e => e.1 == i)).map Prod.snd
      = exynos_irq_demux_eint ((banks.get ⟨i, h⟩).1 &&& compl64 (banks.get ⟨i, h⟩).2)
    ∧ (exynos_irq_demux_eint
        ((banks.get ⟨i, h⟩).1 &&& compl64 (banks.get ⟨i, h⟩).2)).Sorted (· > ·)
    ∧ (∀ j, j ∈ exynos_irq_demux_eint
          ((banks.get ⟨i, h⟩).1 &&& compl64 (banks.get ⟨i, h⟩).2)
        ↔ ((banks.get ⟨i, h⟩).1 &&& compl64 (banks.get ⟨i, h⟩).2).testBit j = true)
    ∧ (∀ j, ((banks.get ⟨i, h⟩).1 &&& compl64 (banks.get ⟨i, h⟩).2).testBit j = true →
        List.count j (exynos_irq_demux_eint
          ((banks.get ⟨i, h⟩).1 &&& compl64 (banks.get ⟨i, h⟩).2)) = 1) := by
  refine ⟨?_, demux_sorted _, fun j => demux_mem _ j, fun j hj => demux_count _ j hj⟩
  have hf := demux_banks_filter banks 0 i h
  rw [Nat.zero_add] at hf
  rw [exynos_irq_demux_eint16_31, hf, List.map_map]
  simp

/-- Witness for C1: the spec's synthetic scenario, pending bits {2, 5} on
bank 0 and bit {9 mod 32 but with a register value with bit 9} on bank 1,
masks zero. -/
theorem C1_muxed_demux_witness :
    ((exynos_irq_demux_eint16_31 [(0x24, 0), (0x200, 0)]).filter
        (fun e => e.1 == 0)).map Prod.snd
      = exynos_irq_demux_eint
          (([(0x24, 0), (0x200, 0)].get ⟨0, by decide⟩).1
            &&& compl64 ([(0x24, 0), (0x200, 0)].get ⟨0, by decide⟩).2)
    ∧ (exynos_irq_demux_eint
        (([(0x24, 0), (0x200, 0)].get ⟨0, by decide⟩).1
          &&& compl64 ([(0x24, 0), (0x200, 0)].get ⟨0, by decide⟩).2)).Sorted (· > ·)
    ∧ (∀ j, j ∈ exynos_irq_demux_eint
          (([(0x24, 0), (0x200, 0)].get ⟨0, by decide⟩).1
            &&& compl64 ([(0x24, 0), (0x200, 0)].get ⟨0, by decide⟩).2)
        ↔ ((([(0x24, 0), (0x200, 0)].get ⟨0, by decide⟩).1
            &&& compl64 ([(0x24, 0), (0x200, 0)].get ⟨0, by decide⟩).2)).testBit j = true)
    ∧ (∀ j, ((([(0x24, 0), (0x200, 0)].get ⟨0, by decide⟩).1
            &&& compl64 ([(0x24, 0), (0x200, 0)].get ⟨0, by decide⟩).2)).testBit j = true →
        List.count j (exynos_irq_demux_eint
          (([(0x24, 0), (0x200, 0)].get ⟨0, by decide⟩).1
            &&& compl64 ([(0x24, 0), (0x200, 0)].get ⟨0, by decide⟩).2)) = 1) :=
  C1_muxed_demux [(0x24, 0), (0x200, 0)] 0 (by decide)

/-! ## C8: initialization failure unwinding -/

theorem gpio_creates_snoc (ty : Nat → EintType) :
    ∀ d i, exynos_gpio_creates ty i (d + 1)
      = exynos_gpio_creates ty i d
          ++ (if ty (i + d) = EintType.gpio then [DomEv.create (i + d)] else []) := by
  intro d
  induction d with
  | zero =>
    intro i
    simp [exynos_gpio_creates]
  | succ d ih =>
    intro i
    have e1 : exynos_gpio_creates ty i (d + 1 + 1)
        = (if ty i = EintType.gpio then [DomEv.create i] else [])
            ++ exynos_gpio_creates ty (i + 1) (d + 1) := rfl
    have e2 : exynos_gpio_creates ty i (d + 1)
        = (if ty i = EintType.gpio then [DomEv.create i] else [])
            ++ exynos_gpio_creates ty (i + 1) d := rfl
    rw [e1, ih (i + 1), e2, List.append_assoc]
    have e3 : i + 1 + d = i + (d + 1) := by omega
    rw [e3]

theorem gpio_unwind_reverse (ty : Nat → EintType) :
    ∀ j, exynos_gpio_unwind ty j
      = ((exynos_gpio_creates ty 0 j).reverse).map DomEv.toRemove := by
  intro j
  induction j with
  | zero => rfl
  | succ j ih =>
    have e1 : exynos_gpio_unwind ty (j + 1)
        = (if ty j = EintType.gpio then [DomEv.remove j] else [])
            ++ exynos_gpio_unwind ty j := rfl
    rw [e1, ih, gpio_creates_snoc ty j 0, Nat.zero_add, List.reverse_append,
      List.map_append]
    congr 1
    by_cases h : ty j = EintType.gpio <;> simp [h, DomEv.toRemove]

theorem gpio_init_loop_fail (ty : Nat → EintType) (domOk allocOk : Nat → Bool) (j : Nat)
    (hj : ty j = EintType.gpio) (hfail : domOk j = false)
    (hok : ∀ k, k < j → ty k = EintType.gpio → domOk k = true ∧ allocOk k = true) :
    ∀ d i, j = i + d → ∀ fuel, j < i + fuel →
      exynos_eint_gpio_init_loop ty domOk allocOk i fuel
        = (-6, exynos_gpio_creates ty i d ++ exynos_gpio_unwind ty j) := by
  intro d
  induction d with
  | zero =>
    intro i hij fuel hfuel
    have hi : i = j := by omega
    subst hi
    cases fuel with
    | zero => omega
    | succ f =>
      simp [exynos_eint_gpio_init_loop, hj, hfail, exynos_gpio_creates]
  | succ d ih =>
    intro i hij fuel hfuel
    cases fuel with
    | zero => omega
    | succ f =>
      have hrec := ih (i + 1) (by omega) f (by omega)
      by_cases hty : ty i = EintType.gpio
      · obtain ⟨hdo, hao⟩ := hok i (by omega) hty
        simp [exynos_eint_gpio_init_loop, hty, hdo, hao, hrec, exynos_gpio_creates]
      · simp [exynos_eint_gpio_init_loop, hty, hrec, exynos_gpio_creates]

theorem wkup_loop_no_remove (ty : Nat → EintType) (domOk hasIrqProp wAllocOk : Nat → Bool) :
    ∀ fuel i k,
      DomEv.remove k ∉ (exynos_eint_wkup_init_loop ty domOk hasIrqProp wAllocOk i fuel).2 := by
  intro fuel
  induction fuel with
  | zero =>
    intro i k
    simp [exynos_eint_wkup_init_loop]
  | succ f ih =>
    intro i k
    simp only [exynos_eint_wkup_init_loop]
    split_ifs with h1 h2 h3 h4
    · exact ih (i + 1) k
    · simp
    · intro hmem
      rw [List.mem_cons] at hmem
      rcases hmem with h | h
      · exact DomEv.noConfusion h
      · exact ih (i + 1) k h
    · simp
    · intro hmem
      rw [List.mem_cons] at hmem
      rcases hmem with h | h
      · exact DomEv.noConfusion h
      · exact ih (i + 1) k h

theorem wkup_loop_fail (ty : Nat → EintType) (domOk hasIrqProp wAllocOk : Nat → Bool)
    (j : Nat) (hj : ty j = EintType.wkup) (hfail : domOk j = false)
    (hok : ∀ k, k < j → ty k = EintType.wkup →
        domOk k = true ∧ (hasIrqProp k = true → wAllocOk k = true)) :
    ∀ d i, j = i + d → ∀ fuel, j < i + fuel →
      exynos_eint_wkup_init_loop ty domOk hasIrqProp wAllocOk i fuel
        = (-6, exynos_wkup_creates ty i d) := by
  intro d
  induction d with
  | zero =>
    intro i hij fuel hfuel
    have hi : i = j := by omega
    subst hi
    cases fuel with
    | zero => omega
    | succ f =>
      simp [exynos_eint_wkup_init_loop, hj, hfail, exynos_wkup_creates]
  | succ d ih =>
    intro i hij fuel hfuel
    cases fuel with
    | zero => omega
    | succ f =>
      have hrec := ih (i + 1) (by omega) f (by omega)
      by_cases hty : ty i = EintType.wkup
      · obtain ⟨hdo, hprop⟩ := hok i (by omega) hty
        by_cases hp : hasIrqProp i = true
        · simp [exynos_eint_wkup_init_loop, hty, hdo, hp, hprop hp, hrec,
            exynos_wkup_creates]
        · simp [exynos_eint_wkup_init_loop, hty, hdo, hp, hrec, exynos_wkup_creates]
      · simp [exynos_eint_wkup_init_loop, hty, hrec, exynos_wkup_creates]

/-- C8 counterexample: a wakeup initialization over two wakeup banks where
domain creation succeeds for bank 0 and fails for bank 1: the failure
propagates (`-ENXIO`), bank 0's domain was created, and no remove event is
ever issued — contradicting the claim that for both entry points every
previously created per-bank domain is unwound before the failure
propagates. -/
theorem C8_counterexample :
    (exynos_eint_wkup_init true (fun _ => EintType.wkup) (fun i => i == 0)
        (fun _ => true) (fun _ => true) 2).1 = -6
    ∧ DomEv.create 0 ∈ (exynos_eint_wkup_init true (fun _ => EintType.wkup) (fun i => i == 0)
        (fun _ => true) (fun _ => true) 2).2
    ∧ DomEv.remove 0 ∉ (exynos_eint_wkup_init true (fun _ => EintType.wkup) (fun i => i == 0)
        (fun _ => true) (fun _ => true) 2).2 := by
  decide

/-- C8 (amended): when virtual-line domain creation fails for a bank, both
EINT initialization entry points fail with `DomainCreateFailed` (`-ENXIO`),
but only the GPIO-style entry point unwinds the previously created per-bank
domains, in reverse creation order, before propagating; the wakeup-style
entry point propagates the failure immediately, leaving every previously
created domain in place (its event trace contains creates only, no
removes). -/
theorem C8_amended_domain_failure
    (ty1 : Nat → EintType) (domOk1 allocOk1 : Nat → Bool) (n1 j1 : Nat)
    (hj1 : j1 < n1) (hty1 : ty1 j1 = EintType.gpio) (hf1 : domOk1 j1 = false)
    (hok1 : ∀ k, k < j1 → ty1 k = EintType.gpio → domOk1 k = true ∧ allocOk1 k = true)
    (ty2 : Nat → EintType) (domOk2 hasIrqProp2 wAllocOk2 : Nat → Bool) (n2 j2 : Nat)
    (hj2 : j2 < n2) (hty2 : ty2 j2 = EintType.wkup) (hf2 : domOk2 j2 = false)
    (hok2 : ∀ k, k < j2 → ty2 k = EintType.wkup →
        domOk2 k = true ∧ (hasIrqProp2 k = true → wAllocOk2 k = true)) :
    (exynos_eint_gpio_init true true ty1 domOk1 allocOk1 n1
        = (-6, exynos_gpio_creates ty1 0 j1 ++ exynos_gpio_unwind ty1 j1)
      ∧ exynos_gpio_unwind ty1 j1
          = ((exynos_gpio_creates ty1 0 j1).reverse).map DomEv.toRemove)
    ∧ (exynos_eint_wkup_init true ty2 domOk2 hasIrqProp2 wAllocOk2 n2
        = (-6, exynos_wkup_creates ty2 0 j2)
      ∧ ∀ k, DomEv.remove k
          ∉ (exynos_eint_wkup_init true ty2 domOk2 hasIrqProp2 wAllocOk2 n2).2) := by
  refine ⟨⟨?_, gpio_unwind_reverse ty1 j1⟩, ?_, ?_⟩
  · show exynos_eint_gpio_init_loop ty1 domOk1 allocOk1 0 n1 = _
    exact gpio_init_loop_fail ty1 domOk1 allocOk1 j1 hty1 hf1 hok1 j1 0 (by omega) n1
      (by omega)
  · show exynos_eint_wkup_init_loop ty2 domOk2 hasIrqProp2 wAllocOk2 0 n2 = _
    exact wkup_loop_fail ty2 domOk2 hasIrqProp2 wAllocOk2 j2 hty2 hf2 hok2 j2 0 (by omega)
      n2 (by omega)
  · intro k
    show DomEv.remove k ∉ (exynos_eint_wkup_init_loop ty2 domOk2 hasIrqProp2 wAllocOk2 0 n2).2
    exact wkup_loop_no_remove ty2 domOk2 hasIrqProp2 wAllocOk2 n2 0 k

/-- Witness for the amended C8: two GPIO banks whose second domain creation
fails, and two wakeup banks whose second domain creation fails. -/
theorem C8_amended_domain_failure_witness :
    (exynos_eint_gpio_init true true (fun _ => EintType.gpio) (fun i => i == 0)
        (fun _ => true) 2
        = (-6, exynos_gpio_creates (fun _ => EintType.gpio) 0 1
            ++ exynos_gpio_unwind (fun _ => EintType.gpio) 1)
      ∧ exynos_gpio_unwind (fun _ => EintType.gpio) 1
          = ((exynos_gpio_creates (fun _ => EintType.gpio) 0 1).reverse).map DomEv.toRemove)
    ∧ (exynos_eint_wkup_init true (fun _ => EintType.wkup) (fun i => i == 0)
          (fun _ => true) (fun _ => true) 2
        = (-6, exynos_wkup_creates (fun _ => EintType.wkup) 0 1)
      ∧ ∀ k, DomEv.remove k
          ∉ (exynos_eint_wkup_init true (fun _ => EintType.wkup) (fun i => i == 0)
              (fun _ => true) (fun _ => true) 2).2) :=
  C8_amended_domain_failure
    (fun _ => EintType.gpio) (fun i => i == 0) (fun _ => true) 2 1
    (by decide) rfl (by decide)
    (by
      intro k hk _
      have hk0 : k = 0 := by omega
      subst hk0
      exact ⟨rfl, rfl⟩)
    (fun _ => EintType.wkup) (fun i => i == 0) (fun _ => true) (fun _ => true) 2 1
    (by decide) rfl (by decide)
    (by
      intro k hk _
      have hk0 : k = 0 := by omega
      subst hk0
      exact ⟨rfl, fun _ => rfl⟩)
